import Mathlib

set_option maxRecDepth 16000

namespace NftPlanner

/-!
Shallow embedding of the external-data resolution pipeline of the
NFT Gift Planner application (src/src/App.jsx and the serverless relay
handler in src/unnamed/part_000).

JavaScript strings are modelled as Lean String values (operated on through
their character lists so that everything reduces in the kernel); JS
null/undefined is modelled by Option; JS regular expressions are modelled
by an explicit backtracking matcher with JavaScript leftmost-first
semantics (ordered alternation, greedy and lazy repetition, capture
groups, end anchor), and each regex literal of the source is transcribed
into a regex AST next to the function that uses it.
-/

/-! JS-like string helpers -/

/-- JS String.prototype.toLowerCase restricted to the ASCII range used by the data. -/
def jsLower (s : String) : String := String.mk (s.data.map Char.toLower)

/-- Character class backslash-s of JS regexes (ASCII whitespace). -/
def isJsWS (c : Char) : Bool :=
  c = ' ' || c = '\t' || c = '\n' || c = '\r' || c = '\x0b' || c = '\x0c'

/-- JS String.prototype.trim. -/
def trimJs (s : String) : String :=
  String.mk (((s.data.dropWhile isJsWS).reverse.dropWhile isJsWS).reverse)

def listHasPref : List Char → List Char → Bool
  | [], _ => true
  | _ :: _, [] => false
  | p :: ps, t :: ts => p = t && listHasPref ps ts

def listHasSub (sub : List Char) : List Char → Bool
  | [] => listHasPref sub []
  | c :: ts => listHasPref sub (c :: ts) || listHasSub sub ts

/-- JS s.includes(sub). -/
def hasSub (s sub : String) : Bool := listHasSub sub.data s.data

/-- JS s.startsWith(p). -/
def jsStartsWith (s p : String) : Bool := listHasPref p.data s.data

/-- JS s.split(sep) for a single newline separator, over character lists. -/
def splitNlList : List Char → List (List Char)
  | [] => [[]]
  | c :: rest =>
    match splitNlList rest with
    | [] => [[c]]
    | l :: ls => if c = '\n' then [] :: l :: ls else (c :: l) :: ls

/-- JS s.split(of the newline character). -/
def jsSplitNl (s : String) : List String := (splitNlList s.data).map String.mk

/-! Regex engine: a backtracking matcher with JS semantics.
    Alternation is ordered, star is greedy or lazy, group indices 1 and 2
    cover every capture group appearing in the source's regexes.
    Recursion is structural on a fuel argument; reFind supplies fuel
    exceeding the maximal backtracking depth for the given input. -/

inductive RE where
  | eps
  | cls (p : Char → Bool)
  | seq (a b : RE)
  | alt (a b : RE)
  | star (greedy : Bool) (a : RE)
  | grp (i : Nat) (a : RE)
  | endA

abbrev Caps := Option (List Char) × Option (List Char)

def noCaps : Caps := (none, none)

def setCap (c : Caps) (i : Nat) (v : List Char) : Caps :=
  if i = 1 then (some v, c.2) else (c.1, some v)

structure MState where
  rest : List Char
  caps : Caps
deriving DecidableEq

abbrev MK := List Char → Caps → Option MState

def mrun : Nat → RE → List Char → Caps → MK → Option MState
  | 0, _, _, _, _ => none
  | fuel + 1, re, s, caps, k =>
    match re with
    | .eps => k s caps
    | .cls p =>
      match s with
      | [] => none
      | c :: rest => if p c then k rest caps else none
    | .endA =>
      match s with
      | [] => k [] caps
      | _ :: _ => none
    | .seq a b => mrun fuel a s caps (fun s2 c2 => mrun fuel b s2 c2 k)
    | .alt a b =>
      match mrun fuel a s caps k with
      | some r => some r
      | none => mrun fuel b s caps k
    | .grp i a =>
      mrun fuel a s caps (fun s2 c2 => k s2 (setCap c2 i (s.take (s.length - s2.length))))
    | .star g a =>
      let once := mrun fuel a s caps
        (fun s2 c2 => if s2.length < s.length then mrun fuel (.star g a) s2 c2 k else none)
      if g then
        match once with
        | some r => some r
        | none => k s caps
      else
        match k s caps with
        | some r => some r
        | none => once

def reSize : RE → Nat
  | .eps => 1
  | .cls _ => 1
  | .seq a b => 1 + reSize a + reSize b
  | .alt a b => 1 + reSize a + reSize b
  | .star _ a => 1 + reSize a
  | .grp _ a => 1 + reSize a
  | .endA => 1

/-- Result of a successful regex search: the text before the match, the
    matched text, the text after it, and the captured groups. -/
structure Found where
  pre : List Char
  matched : List Char
  rest : List Char
  caps : Caps
deriving DecidableEq

def matchAt (fuel : Nat) (re : RE) (s : List Char) : Option MState :=
  mrun fuel re s noCaps (fun rest caps => some ⟨rest, caps⟩)

def searchAux (re : RE) (fuel : Nat) (pre : List Char) (s : List Char) : Option Found :=
  match matchAt fuel re s with
  | some m => some ⟨pre.reverse, s.take (s.length - m.rest.length), m.rest, m.caps⟩
  | none =>
    match s with
    | [] => none
    | c :: s2 => searchAux re fuel (c :: pre) s2

/-- JS s.match(re): leftmost match, trying successive start positions. -/
def reFind (re : RE) (s : String) : Option Found :=
  searchAux re ((reSize re + 2) * (s.data.length + 2)) [] s.data

/-- First capture group of a match result, as in JS match access at index one. -/
def group1 (r : Option Found) : Option String :=
  match r with
  | some f =>
    match f.caps.1 with
    | some g => some (String.mk g)
    | none => none
  | none => none

/-- Second capture group of a match result, as in JS match access at index two. -/
def group2 (r : Option Found) : Option String :=
  match r with
  | some f =>
    match f.caps.2 with
    | some g => some (String.mk g)
    | none => none
  | none => none

/-- JS s.replace(re, repl) for a non-global regex and plain replacement
    string: replaces the leftmost match only. -/
def replaceFirst (re : RE) (s : String) (repl : String) : String :=
  match reFind re s with
  | some f => String.mk (f.pre ++ repl.data ++ f.rest)
  | none => s

/-! Regex AST building blocks -/

def cat (l : List RE) : RE := l.foldr .seq .eps

def lit (c : Char) : RE := .cls (fun x => x = c)

/-- Case-insensitive literal, for regexes carrying the i flag. -/
def litCI (c : Char) : RE := .cls (fun x => x.toLower = c.toLower)

def rstr (s : String) : RE := cat (s.data.map lit)

def rstrCI (s : String) : RE := cat (s.data.map litCI)

def wsC : RE := .cls isJsWS
def digitC : RE := .cls Char.isDigit
def dotC : RE := .cls (fun c => c ≠ '\n' && c ≠ '\r')

def starG (a : RE) : RE := .star true a
def starL (a : RE) : RE := .star false a
def plusG (a : RE) : RE := .seq a (starG a)
def plusL (a : RE) : RE := .seq a (starL a)
def optG (a : RE) : RE := .alt a .eps

/-! parseLink (App.jsx lines 413 to 428) -/

/-- Regex t backslash-dot me slash nft slash (lazy dot-plus) dash (digit-plus)
    of parseLink. -/
def linkRe : RE :=
  cat [rstr "t.me/nft/", .grp 1 (plusL dotC), lit '-', .grp 2 (plusG digitC)]

/-- JS slug.replace of every dash by a space. -/
def dashToSpace (cs : List Char) : List Char := cs.map (fun c => if c = '-' then ' ' else c)

/-- JS global replace of (lowercase)(uppercase) by the pair split with a
    space: since a match's second character can never start another match,
    the global scan is exactly insertion of a space at every adjacent
    lowercase-uppercase boundary. -/
def camelSplit : List Char → List Char
  | [] => []
  | [c] => [c]
  | a :: b :: rest =>
    if a.isLower && b.isUpper then a :: ' ' :: camelSplit (b :: rest)
    else a :: camelSplit (b :: rest)

/-- Word character class of JS regexes. -/
def isWordC (c : Char) : Bool := c.isAlphanum || c = '_'

/-- JS global replace of every word character at a word boundary by its
    uppercase form (the title-casing step of parseLink): a word character
    matches exactly when the previous character is absent or not a word
    character. -/
def titleWords : Bool → List Char → List Char
  | _, [] => []
  | prev, c :: rest =>
    (if isWordC c && !prev then c.toUpper else c) :: titleWords (isWordC c) rest

structure LinkInfo where
  name : String
  giftNumber : String
  slug : String
deriving DecidableEq

/-- App.jsx parseLink: match the link against linkRe; on success derive the
    display name from the slug capture (dashes to spaces, camel-case split,
    title-case) and return it with the number capture; on failure null.
    Both captures are mandatory plus-quantified groups, so they are always
    present when the regex matches; the wildcard row is unreachable. -/
def parseLink (link : String) : Option LinkInfo :=
  match reFind linkRe link with
  | some f =>
    match f.caps.1, f.caps.2 with
    | some slugCs, some numCs =>
      some ⟨String.mk (titleWords false (camelSplit (dashToSpace slugCs))),
            String.mk numCs, String.mk slugCs⟩
    | _, _ => none
  | none => none

/-! parseNftPageContent (App.jsx lines 438 to 556) -/

/-- The apostrophe character, for the quote classes of the meta regex. -/
def quoteC : Char := Char.ofNat 39

def qcC : RE := .cls (fun c => c = '"' || c = quoteC)
def notGtC : RE := .cls (fun c => c ≠ '>')
def notQC : RE := .cls (fun c => c ≠ '"' && c ≠ quoteC)
def notDqC : RE := .cls (fun c => c ≠ '"')

/-- Regex of the meta description probe: literal meta tag opener, anything
    but a closing angle bracket, then either a name equal to description or
    a property equal to og:description between quote characters, more
    non-closing characters, a content attribute, and the quoted content as
    group one; case-insensitive. -/
def metaDescRe : RE :=
  cat [rstrCI "<meta", starG notGtC,
       .alt (cat [rstrCI "name=", qcC, rstrCI "description", qcC])
            (cat [rstrCI "property=", qcC, rstrCI "og:description", qcC]),
       starG notGtC, rstrCI "content=", qcC,
       .grp 1 (plusG notQC), qcC]

/-- Regex of the page description probe: a div whose class attribute
    contains tgme_page_description, capturing its inner text up to the next
    opening angle bracket; case-insensitive. -/
def pageDescRe : RE :=
  cat [rstrCI "<div", starG notGtC, rstrCI "class=", lit '"', starG notDqC,
       rstrCI "tgme_page_description", starG notDqC, lit '"', starG notGtC, lit '>',
       .grp 1 (plusG (.cls (fun c => c ≠ '<'))), lit '<']

/-- Regex of the webview data probe: data-webview-text attribute with its
    quoted value as group one; case-insensitive. -/
def webviewRe : RE :=
  cat [rstrCI "data-webview-text=", lit '"', .grp 1 (plusG notDqC), lit '"']

def colonPipeC : RE := .cls (fun c => c = ':' || c = '|')

/-- First shape of a labeled field: pipe, label, pipe, lazily captured
    non-pipe value, optional percentage, closing pipe; case-insensitive. -/
def fieldRe1 (label : RE) : RE :=
  cat [lit '|', starG wsC, label, starG wsC, lit '|', starG wsC,
       .grp 1 (plusL (.cls (fun c => c ≠ '|'))), starG wsC,
       optG (cat [plusG digitC, optG (lit '.'), starG digitC, lit '%', starG wsC]),
       lit '|']

/-- Second shape: label, colon or pipe, lazily captured value without
    percent signs or newlines, then either whitespace and a percentage or
    the end of the input; case-insensitive. -/
def fieldRe2 (label : RE) : RE :=
  cat [label, starG wsC, colonPipeC, starG wsC,
       .grp 1 (plusL (.cls (fun c => c ≠ '%' && c ≠ '\n'))),
       .alt (cat [plusG wsC, plusG digitC, optG (lit '.'), starG digitC, lit '%']) .endA]

/-- Third shape: label, colon or pipe, then the rest of the line;
    case-insensitive. -/
def fieldRe3 (label : RE) : RE :=
  cat [label, starG wsC, colonPipeC, starG wsC, .grp 1 (plusG dotC)]

def modelLabel : RE := rstrCI "Model"
def backdropLabel : RE := rstrCI "Backdrop"
def symPatLabel : RE := .alt (rstrCI "Symbol") (rstrCI "Pattern")

/-- Regex of the trailing-percentage strip: whitespace, digits, optional
    fraction, percent sign, whitespace, anchored at the end. -/
def pctTailRe : RE :=
  cat [starG wsC, plusG digitC, optG (lit '.'), starG digitC, lit '%', starG wsC, .endA]

/-- Post-processing of a captured field value: trim, strip a trailing
    percentage suffix, trim again. -/
def postVal (v : String) : String := trimJs (replaceFirst pctTailRe (trimJs v) "")

/-- The three regex shapes of a labeled field, tried in order; the source
    guards the assignment by the raw capture being truthy, and every
    capture group here is plus-quantified hence nonempty, so the guard is
    equivalent to the match succeeding. -/
def tryFieldVal (l1 l2 l3 : RE) (line : String) : Option String :=
  match group1 (reFind l1 line) with
  | some v => some (postVal v)
  | none =>
    match group1 (reFind l2 line) with
    | some v => some (postVal v)
    | none =>
      match group1 (reFind l3 line) with
      | some v => some (postVal v)
      | none => none

def tryModelVal (line : String) : Option String :=
  tryFieldVal (fieldRe1 modelLabel) (fieldRe2 modelLabel) (fieldRe3 modelLabel) line

def tryBackdropVal (line : String) : Option String :=
  tryFieldVal (fieldRe1 backdropLabel) (fieldRe2 backdropLabel) (fieldRe3 backdropLabel) line

def tryPatternVal (line : String) : Option String :=
  tryFieldVal (fieldRe1 symPatLabel) (fieldRe2 symPatLabel) (fieldRe3 symPatLabel) line

/-- Character class of digits, commas and whitespace of the quantity regexes. -/
def dcsC : RE := .cls (fun c => c.isDigit || c = ',' || isJsWS c)

/-- Per-line quantity regex: digits-commas-spaces, a slash, optional
    whitespace, and the captured right-hand operand. -/
def qtyRe : RE := cat [plusG dcsC, lit '/', starG wsC, .grp 1 (plusG dcsC)]

/-- Global quantity regex: both operands captured around the slash, with an
    optional issued suffix; case-insensitive. -/
def globalQtyRe : RE :=
  cat [.grp 1 (plusG dcsC), starG wsC, lit '/', starG wsC, .grp 2 (plusG dcsC),
       starG wsC, optG (rstrCI "issued")]

/-- JS global replace removing whitespace and commas. -/
def stripSep (s : String) : String :=
  String.mk (s.data.filter (fun c => !(isJsWS c || c = ',')))

/-- JS parseInt in base ten on the stripped operand: the operand consists of
    digits only after separator stripping, so this is the maximal digit
    prefix, with failure (NaN) when no digit leads. -/
def jsParseIntDigits (s : String) : Option Nat :=
  let ds := s.data.takeWhile Char.isDigit
  if ds = [] then none
  else some (ds.foldl (fun n c => n * 10 + (c.toNat - 48)) 0)

/-- ExtractedAttributes: each field is a JS string-or-null (Option String)
    or number-or-null (Option Nat). The source initializes the three string
    fields to the empty string, written some of the empty string here, and
    totalIssued to null. -/
structure Extracted where
  model : Option String
  backdrop : Option String
  pattern : Option String
  totalIssued : Option Nat
deriving DecidableEq

/-- JS falsiness of a string-or-null value. -/
def isFalsyS : Option String → Bool
  | none => true
  | some s => s = ""

/-- JS falsiness of a number-or-null value. -/
def isFalsyN : Option Nat → Bool
  | none => true
  | some n => n = 0

/-- The model branch of the line loop, acting on the model field: on a
    line mentioning model with the field still falsy, try the three shapes
    and assign the post-processed value; otherwise leave the field. -/
def modelUpdate (m : Option String) (line : String) : Option String :=
  if hasSub (jsLower line) "model" && isFalsyS m then
    match tryModelVal line with
    | some v => some v
    | none => m
  else m

/-- The backdrop branch of the line loop, acting on the backdrop field. -/
def backdropUpdate (b : Option String) (line : String) : Option String :=
  if hasSub (jsLower line) "backdrop" && isFalsyS b then
    match tryBackdropVal line with
    | some v => some v
    | none => b
  else b

/-- The symbol-or-pattern branch of the line loop, acting on the pattern field. -/
def patternUpdate (p : Option String) (line : String) : Option String :=
  if (hasSub (jsLower line) "symbol" || hasSub (jsLower line) "pattern") && isFalsyS p then
    match tryPatternVal line with
    | some v => some v
    | none => p
  else p

/-- The quantity branch of the line loop, acting on totalIssued: on a line
    mentioning quantity or issued or containing a slash, with the field
    still falsy, match the per-line quantity regex, strip separators from
    the right operand, parse it, and keep it only when positive. -/
def qtyUpdate (acc : Option Nat) (line : String) : Option Nat :=
  if (hasSub (jsLower line) "quantity" || hasSub (jsLower line) "issued"
      || hasSub line "/") && isFalsyN acc then
    match group1 (reFind qtyRe line) with
    | some g =>
      match jsParseIntDigits (stripSep g) with
      | some n => if 0 < n then some n else acc
      | none => acc
    | none => acc
  else acc

def branchModel (r : Extracted) (line : String) : Extracted :=
  { r with model := modelUpdate r.model line }

def branchBackdrop (r : Extracted) (line : String) : Extracted :=
  { r with backdrop := backdropUpdate r.backdrop line }

def branchPattern (r : Extracted) (line : String) : Extracted :=
  { r with pattern := patternUpdate r.pattern line }

def branchQty (r : Extracted) (line : String) : Extracted :=
  { r with totalIssued := qtyUpdate r.totalIssued line }

/-- One iteration of the line loop of parseNftPageContent: skip empty
    lines, then run the model, backdrop, symbol-or-pattern and quantity
    branches in order on the evolving result; each branch reads and writes
    only its own field of the evolving record. -/
def stepLine (r : Extracted) (line : String) : Extracted :=
  if line = "" then r
  else branchQty (branchPattern (branchBackdrop (branchModel r line) line) line) line

/-- The totalIssued component of one line-loop iteration. -/
def stepTI (acc : Option Nat) (line : String) : Option Nat :=
  if line = "" then acc else qtyUpdate acc line

/-- Content assembled before line splitting: the meta description, page
    description and webview probes, each prepended when found; the meta
    probe prepends to the original text, the other two to the accumulated
    content, exactly as in the source. -/
def contentOf (text : String) : String :=
  let c1 :=
    match group1 (reFind metaDescRe text) with
    | some m => m ++ "\n" ++ text
    | none => text
  let c2 :=
    match group1 (reFind pageDescRe text) with
    | some p => p ++ "\n" ++ c1
    | none => c1
  match group1 (reFind webviewRe text) with
  | some w => w ++ "\n" ++ c2
  | none => c2

/-- The trimmed lines handed to the line loop. -/
def linesOf (text : String) : List String := (jsSplitNl (contentOf text)).map trimJs

/-- Initial result record of parseNftPageContent. -/
def initExtracted : Extracted := ⟨some "", some "", some "", none⟩

/-- The global fallback extraction of totalIssued: one scan of the whole
    original input with the global quantity regex, the right operand
    stripped, parsed, and accepted only if positive. -/
def globalTI (text : String) : Option Nat :=
  match group2 (reFind globalQtyRe text) with
  | some g =>
    match jsParseIntDigits (stripSep g) with
    | some n => if 0 < n then some n else none
    | none => none
  | none => none

/-- App.jsx parseNftPageContent: assemble the content, run the line loop,
    then if totalIssued is still falsy try the global quantity scan on the
    original text. -/
def parseNftPageContent (text : String) : Extracted :=
  let r := (linesOf text).foldl stepLine initExtracted
  if isFalsyN r.totalIssued then
    match globalTI text with
    | some n => { r with totalIssued := some n }
    | none => r
  else r

/-- The model component of one line-loop iteration. -/
def stepModel (m : Option String) (line : String) : Option String :=
  if line = "" then m else modelUpdate m line

/-- Model value a single line can contribute when the field is still unset:
    requires the label, a matching shape, and a nonempty post-processed
    value (an empty post-processed value leaves the field falsy, so it is
    observationally no contribution). -/
def extractModel (line : String) : Option String :=
  if line = "" then none
  else if hasSub (jsLower line) "model" then
    match tryModelVal line with
    | some v => if v = "" then none else some v
    | none => none
  else none

/-- The backdrop component of one line-loop iteration. -/
def stepBackdrop (b : Option String) (line : String) : Option String :=
  if line = "" then b else backdropUpdate b line

/-- Backdrop value a single line can contribute when the field is still
    unset: requires the label, a matching shape, and a nonempty
    post-processed value. -/
def extractBackdrop (line : String) : Option String :=
  if line = "" then none
  else if hasSub (jsLower line) "backdrop" then
    match tryBackdropVal line with
    | some v => if v = "" then none else some v
    | none => none
  else none

/-- The pattern component of one line-loop iteration. -/
def stepPattern (p : Option String) (line : String) : Option String :=
  if line = "" then p else patternUpdate p line

/-- Pattern value a single line can contribute when the field is still
    unset: requires the symbol or pattern label, a matching shape, and a
    nonempty post-processed value. -/
def extractPattern (line : String) : Option String :=
  if line = "" then none
  else if hasSub (jsLower line) "symbol" || hasSub (jsLower line) "pattern" then
    match tryPatternVal line with
    | some v => if v = "" then none else some v
    | none => none
  else none

/-! safeFetch (App.jsx lines 363 to 395) -/

/-- Cache key of safeFetch: every character outside the ASCII alphanumeric
    class is replaced by an underscore. -/
def cacheKey (endpoint : String) : String :=
  String.mk (endpoint.data.map (fun c => if c.isAlpha || c.isDigit then c else '_'))

/-- Cache key as the specification words it: stripping all non-alphanumeric
    characters. Stated from the spec, for comparison with cacheKey. -/
def cacheKeySpecStripped (endpoint : String) : String :=
  String.mk (endpoint.data.filter (fun c => c.isAlpha || c.isDigit))

/-- Pointwise map update, modelling a sessionStorage write. -/
def setMap (m : String → Option String) (k v : String) : String → Option String :=
  fun x => if x = k then some v else m x

/-- Observable outcome of one safeFetch call: the returned value, the cache
    afterwards, the backoff delays awaited (in milliseconds, in order), and
    the number of network attempts issued. -/
structure FetchRes (J : Type) where
  value : J
  cache : String → Option String
  delays : List Nat
  calls : Nat

/-- The retry loop of safeFetch. The network is modelled by a function from
    the attempt number to the parsed JSON payload of a successful attempt,
    or none for a thrown or non-ok or unparseable attempt; J is the type of
    parsed JSON values, stringify the serialization stored in the cache.
    The fuel argument is the remaining number of attempts, three at entry,
    so the zero row is unreachable. -/
def safeFetchLoop {J : Type} (stringify : J → String) (net : Nat → Option J)
    (key : String) (fallback : J) (cache : String → Option String) :
    Nat → Nat → List Nat → Nat → FetchRes J
  | _, 0, delays, calls => ⟨fallback, cache, delays, calls⟩
  | attempt, fuel + 1, delays, calls =>
    match net attempt with
    | some d => ⟨d, setMap cache key (stringify d), delays, calls + 1⟩
    | none =>
      if attempt = 3 then ⟨fallback, cache, delays, calls + 1⟩
      else safeFetchLoop stringify net key fallback cache
             (attempt + 1) fuel (delays ++ [800 * attempt]) (calls + 1)

/-- App.jsx safeFetch: compute the cache key; on a cache hit return the
    parsed entry with no network attempt; otherwise run up to three
    attempts with linear backoff, caching only a success and returning the
    fallback uncached after the final failure. -/
def safeFetch {J : Type} (stringify : J → String) (parse : String → J)
    (net : Nat → Option J) (cache : String → Option String)
    (endpoint : String) (fallback : J) : FetchRes J :=
  match cache (cacheKey endpoint) with
  | some c => ⟨parse c, cache, [], 0⟩
  | none => safeFetchLoop stringify net (cacheKey endpoint) fallback cache 1 3 [] 0

/-! fetchNftDetails (App.jsx lines 562 to 623) -/

/-- Outcome of one relay attempt: a thrown fetch, a non-success status, or
    a success whose body is the text after the allorigins-get unwrap (none
    models an undefined contents field of that unwrap). -/
inductive RelayOut where
  | err
  | notOk
  | ok (body : Option String)
deriving DecidableEq

/-- The length check of the relay loop: html && html.length > 100. -/
def lenPass : Option String → Bool
  | some t => 100 < t.data.length
  | none => false

/-- Whether a relay outcome passes status and length check. -/
def lenPassOut : RelayOut → Bool
  | .ok h => lenPass h
  | _ => false

/-- The relay loop of fetchNftDetails: the html variable starts null; a
    thrown or non-ok relay leaves it unchanged; a success assigns its body,
    and the loop breaks when the body passes the length check. -/
def proxyLoop : Option String → List RelayOut → Option String
  | acc, [] => acc
  | acc, .err :: rest => proxyLoop acc rest
  | acc, .notOk :: rest => proxyLoop acc rest
  | _, .ok h :: rest => if lenPass h then h else proxyLoop h rest

/-- App.jsx fetchNftDetails after the relay loop: a falsy html (null,
    undefined or empty) yields null, otherwise the extraction of the html. -/
def fetchNftDetailsModel (outs : List RelayOut) : Option Extracted :=
  match proxyLoop none outs with
  | none => none
  | some h => if h = "" then none else some (parseNftPageContent h)

/-! Gift-identifier index (App.jsx lines 55 to 64, 75 to 116, 332 to 355) -/

/-- App.jsx normalizeGiftName: lowercase with spaces replaced by dashes. -/
def normalizeGiftName (name : String) : String :=
  String.mk ((jsLower name).data.map (fun c => if c = ' ' then '-' else c))

/-- App.jsx aggressiveNormalize: lowercase with every character outside the
    lowercase-alphanumeric class removed. -/
def aggressiveNormalize (str : String) : String :=
  String.mk ((jsLower str).data.filter (fun c => ('a' ≤ c && c ≤ 'z') || ('0' ≤ c && c ≤ '9')))

/-- The six lookup variants of a display name, in the order of the source:
    identity, lowercase, dashed, aggressive, space-removed, underscored. -/
def variantsOf (name : String) : List String :=
  [name,
   jsLower name,
   normalizeGiftName name,
   aggressiveNormalize name,
   String.mk (name.data.filter (fun c => c ≠ ' ')),
   String.mk ((jsLower name).data.map (fun c => if c = ' ' then '_' else c))]

/-- Index construction of loadInitialData: for every pair of the name-to-id
    source, insert all six variants pointing at the identifier; a later
    write to the same key wins. -/
def buildGiftIds (pairs : List (String × String)) : String → Option String :=
  pairs.foldl
    (fun m p => (variantsOf p.1).foldl (fun m2 v => setMap m2 v p.2) m)
    (fun _ => none)

/-- The variant-lookup loop of getGiftImageUrl: try the six variants of the
    query name in order and return the first truthy hit (a present,
    nonempty identifier), or null. -/
def resolveGiftId (giftIds : String → Option String) (gift : String) : Option String :=
  (variantsOf gift).findSome? (fun v =>
    match giftIds v with
    | some id => if id = "" then none else some id
    | none => none)

/-! Backdrop matching (App.jsx lines 1126 to 1136) -/

/-- A catalog backdrop entry; only its name takes part in matching. -/
structure BackdropItem where
  name : String
deriving DecidableEq

/-- The predicate of the backdrop search in handleLink: case-insensitive
    equality, or case-insensitive containment in either direction, as one
    disjunction evaluated per entry. -/
def bdMatches (label : String) (b : BackdropItem) : Bool :=
  jsLower b.name = jsLower label
  || hasSub (jsLower b.name) (jsLower label)
  || hasSub (jsLower label) (jsLower b.name)

/-- App.jsx handleLink backdrop resolution: the first entry of the backdrop
    list satisfying bdMatches. -/
def findMatchingBackdrop (bs : List BackdropItem) (label : String) : Option BackdropItem :=
  bs.find? (bdMatches label)

/-! Serverless relay handler (src/unnamed/part_000, lines 6 to 69) -/

/-- Result of parsing a URL string, as far as the handler inspects it; the
    parse function itself is the platform URL constructor and is a
    parameter of the model. -/
structure UrlParts where
  hostname : String
  pathname : String
deriving DecidableEq

/-- The handler's behaviour up to and including the decision which URL, if
    any, to fetch upstream: either an immediate response with a status, or
    an upstream fetch of the given target. -/
inductive ProxyStep where
  | respond (status : Nat)
  | upstream (target : String)
deriving DecidableEq

/-- The relay handler of src/unnamed/part_000: preflight and method checks,
    the missing-or-empty url parameter check, URL parsing, the strict host
    and path validation, and the reconstruction of the fetched target from
    the parsed pathname. -/
def proxyHandler (parseUrl : String → Option UrlParts) (method : String)
    (urlParam : Option String) : ProxyStep :=
  if method = "OPTIONS" then .respond 200
  else if method ≠ "GET" then .respond 405
  else
    match urlParam with
    | none => .respond 400
    | some u =>
      if u = "" then .respond 400
      else
        match parseUrl u with
        | none => .respond 400
        | some p =>
          if p.hostname ≠ "t.me" || !(jsStartsWith p.pathname "/nft/") then .respond 403
          else .upstream ("https://t.me" ++ p.pathname)

/-! Helper lemmas -/

/-- A satisfied entry after a run of unsatisfied entries is the one found. -/
theorem find_after_misses {α : Type} (p : α → Bool) (pre : List α) (b : α) (rest : List α)
    (hpre : ∀ a ∈ pre, p a = false) (hb : p b = true) :
    (pre ++ b :: rest).find? p = some b := by
  induction pre with
  | nil => simp [List.find?_cons_of_pos, hb]
  | cons a pre ih =>
    have ha : p a = false := hpre a (by simp)
    rw [List.cons_append, List.find?_cons_of_neg _ (by simp [ha])]
    exact ih (fun x hx => hpre x (by simp [hx]))

/-- A list of skipped relay outcomes leaves the html accumulator unchanged. -/
theorem proxyLoop_skips (outs : List RelayOut)
    (h : ∀ o ∈ outs, o = RelayOut.err ∨ o = RelayOut.notOk) :
    ∀ acc, proxyLoop acc outs = acc := by
  induction outs with
  | nil => intro acc; rfl
  | cons o outs ih =>
    intro acc
    have ho := h o (by simp)
    have hrest : ∀ o ∈ outs, o = RelayOut.err ∨ o = RelayOut.notOk :=
      fun x hx => h x (by simp [hx])
    rcases ho with rfl | rfl
    · exact ih hrest acc
    · exact ih hrest acc

/-- Until a relay passes the length check, the loop keeps going; the first
    passing success is returned regardless of the accumulator and of any
    later relays. -/
theorem proxyLoop_first_pass (pre : List RelayOut) (t : String) (rest : List RelayOut)
    (hpre : ∀ o ∈ pre, lenPassOut o = false) (ht : 100 < t.data.length) :
    ∀ acc, proxyLoop acc (pre ++ RelayOut.ok (some t) :: rest) = some t := by
  induction pre with
  | nil =>
    intro acc
    have hp : lenPass (some t) = true := decide_eq_true ht
    simp [proxyLoop, hp]
  | cons o pre ih =>
    intro acc
    have ho : lenPassOut o = false := hpre o (by simp)
    have hrest : ∀ o ∈ pre, lenPassOut o = false := fun x hx => hpre x (by simp [hx])
    cases o with
    | err => exact ih hrest acc
    | notOk => exact ih hrest acc
    | ok h =>
      have hh : lenPass h = false := ho
      simp only [List.cons_append, proxyLoop, hh]
      exact ih hrest h

/-! Claim theorems -/

/-- C1 counterexample: the coordinator does not try case-insensitive
    equality across the whole list first. With the backdrop list Night,
    Nightfall and the extracted label Nightfall, an entry equal to the
    label (Nightfall) is in the list, yet the code returns the earlier
    entry Night, which matches only by containment. -/
theorem backdrop_equality_not_preferred :
    findMatchingBackdrop [⟨"Night"⟩, ⟨"Nightfall"⟩] "Nightfall" = some ⟨"Night"⟩
    ∧ (⟨"Nightfall"⟩ : BackdropItem) ∈ [(⟨"Night"⟩ : BackdropItem), ⟨"Nightfall"⟩]
    ∧ jsLower (BackdropItem.name ⟨"Nightfall"⟩) = jsLower "Nightfall"
    ∧ jsLower (BackdropItem.name ⟨"Night"⟩) ≠ jsLower "Nightfall" := by
  decide

/-- C1 amended: the coordinator resolves an extracted backdrop label to the
    first entry of the catalog backdrop list satisfying, in one pass,
    case-insensitive equality or case-insensitive substring containment in
    either direction; equality is not prioritized over containment. -/
theorem backdrop_first_qualifying (pre : List BackdropItem) (b : BackdropItem)
    (rest : List BackdropItem) (label : String)
    (hpre : ∀ a ∈ pre, bdMatches label a = false) (hb : bdMatches label b = true) :
    findMatchingBackdrop (pre ++ b :: rest) label = some b :=
  find_after_misses (bdMatches label) pre b rest hpre hb

/-- C1 witness: a concrete instantiation of the amended statement. -/
theorem backdrop_first_qualifying_witness :
    findMatchingBackdrop ([⟨"Dark"⟩] ++ ⟨"Nightfall"⟩ :: [⟨"Moonlit"⟩]) "nightfall" =
      some ⟨"Nightfall"⟩ :=
  backdrop_first_qualifying [⟨"Dark"⟩] ⟨"Nightfall"⟩ [⟨"Moonlit"⟩] "nightfall"
    (by decide) (by decide)

/-- C2 counterexample: on the empty input the three string fields come back
    as the empty string, the code's falsy unset marker, not as null; only
    totalIssued is null. -/
theorem parse_empty_not_all_null :
    (parseNftPageContent "").model = some ""
    ∧ (parseNftPageContent "").backdrop = some ""
    ∧ (parseNftPageContent "").pattern = some ""
    ∧ (parseNftPageContent "").model ≠ none := by
  decide

/-- C2 amended: the content extractor on the empty input returns the empty
    string for model, backdrop and pattern, null for totalIssued, and it
    raises no exception (the extractor is a total function). -/
theorem parse_empty_fields :
    parseNftPageContent "" = ⟨some "", some "", some "", none⟩ := by
  decide

/-- C3 counterexample: with a first relay returning a success status and a
    short body (rejected by the length check) and every later relay
    failing, the retained short body is parsed and returned instead of
    null, so the all-relays-rejected case does not return null. -/
theorem proxyChain_short_body_not_null :
    ([RelayOut.ok (some "short"), .err, .err, .err, .err].all
        (fun o => !lenPassOut o)) = true
    ∧ fetchNftDetailsModel [RelayOut.ok (some "short"), .err, .err, .err, .err] =
        some (parseNftPageContent "short")
    ∧ fetchNftDetailsModel [RelayOut.ok (some "short"), .err, .err, .err, .err] ≠ none := by
  decide

/-- C3 amended: fetchNftDetails returns the text of the first relay whose
    status is success and whose unwrapped body length exceeds the
    threshold, never consulting later relays in that case; and when every
    relay throws or has a non-success status it returns null. A success
    body rejected by the length check is however retained, and when no
    later relay passes, the retained body is parsed instead of null (see
    the counterexample). -/
theorem proxyChain_behavior :
    (∀ (pre : List RelayOut) (t : String) (rest : List RelayOut),
       (∀ o ∈ pre, lenPassOut o = false) → 100 < t.data.length →
       proxyLoop none (pre ++ RelayOut.ok (some t) :: rest) = some t
       ∧ fetchNftDetailsModel (pre ++ RelayOut.ok (some t) :: rest) =
           some (parseNftPageContent t))
    ∧ (∀ outs : List RelayOut,
       (∀ o ∈ outs, o = RelayOut.err ∨ o = RelayOut.notOk) →
       fetchNftDetailsModel outs = none) := by
  constructor
  · intro pre t rest hpre ht
    have hl := proxyLoop_first_pass pre t rest hpre ht none
    refine ⟨hl, ?_⟩
    have hne : t ≠ "" := by
      intro h
      rw [h] at ht
      simp at ht
    simp [fetchNftDetailsModel, hl, hne]
  · intro outs h
    have := proxyLoop_skips outs h none
    simp [fetchNftDetailsModel, this]

/-- C3 witness: a concrete instantiation of the first-passing-relay part. -/
theorem proxyChain_behavior_witness :
    proxyLoop none ([RelayOut.err] ++ RelayOut.ok
      (some "aaaaaaaaaaaaaaaaaaaaaaaaaaaaaaaaaaaaaaaaaaaaaaaaaaaaaaaaaaaaaaaaaaaaaaaaaaaaaaaaaaaaaaaaaaaaaaaaaaaaa")
      :: [RelayOut.notOk]) =
      some "aaaaaaaaaaaaaaaaaaaaaaaaaaaaaaaaaaaaaaaaaaaaaaaaaaaaaaaaaaaaaaaaaaaaaaaaaaaaaaaaaaaaaaaaaaaaaaaaaaaaa" :=
  (proxyChain_behavior.1 [RelayOut.err]
    "aaaaaaaaaaaaaaaaaaaaaaaaaaaaaaaaaaaaaaaaaaaaaaaaaaaaaaaaaaaaaaaaaaaaaaaaaaaaaaaaaaaaaaaaaaaaaaaaaaaaa"
    [RelayOut.notOk] (by decide) (by decide)).1

/-- C9: the link parser maps the sample link to the expected record,
    deriving the display name by dash replacement, camel-case splitting and
    title-casing; and any string the link regex does not match anywhere is
    rejected with null. -/
theorem parseLink_spec :
    parseLink "t.me/nft/InstantRamen-42" =
      some ⟨"Instant Ramen", "42", "InstantRamen"⟩
    ∧ (∀ s, reFind linkRe s = none → parseLink s = none) := by
  constructor
  · decide
  · intro s h
    simp [parseLink, h]

/-- C9 witness: a malformed link is rejected. -/
theorem parseLink_spec_witness : parseLink "hello world" = none :=
  parseLink_spec.2 "hello world" (by decide)

/-- C10: for a GET request to the first-party relay, a missing or empty url
    parameter yields status 400 with no upstream fetch, an unparseable url
    yields 400, a parsed url whose hostname is not exactly t.me or whose
    path does not start with the nft prefix yields 403, and any upstream
    fetch that does happen targets exactly the reconstruction of the
    parsed pathname onto the t.me origin. -/
theorem proxyHandler_guards (parseUrl : String → Option UrlParts) (u : String) :
    proxyHandler parseUrl "GET" none = .respond 400
    ∧ (parseUrl u = none → proxyHandler parseUrl "GET" (some u) = .respond 400)
    ∧ (∀ p, parseUrl u = some p → u ≠ "" →
        (p.hostname ≠ "t.me" ∨ jsStartsWith p.pathname "/nft/" = false) →
        proxyHandler parseUrl "GET" (some u) = .respond 403)
    ∧ (∀ t, proxyHandler parseUrl "GET" (some u) = .upstream t →
        ∃ p, parseUrl u = some p ∧ p.hostname = "t.me"
          ∧ jsStartsWith p.pathname "/nft/" = true
          ∧ t = "https://t.me" ++ p.pathname) := by
  refine ⟨by simp [proxyHandler], ?_, ?_, ?_⟩
  · intro h
    by_cases hu : u = "" <;> simp [proxyHandler, hu, h]
  · intro p hp hu hbad
    rcases hbad with h | h <;> simp [proxyHandler, hu, hp, h]
  · intro t ht
    by_cases hu : u = ""
    · simp [proxyHandler, hu] at ht
    · cases hp : parseUrl u with
      | none => simp [proxyHandler, hu, hp] at ht
      | some p =>
        by_cases hh : p.hostname = "t.me"
        · by_cases hs : jsStartsWith p.pathname "/nft/" = true
          · refine ⟨p, rfl, hh, hs, ?_⟩
            simp [proxyHandler, hu, hp, hh, hs] at ht
            exact ht.symm
          · simp [proxyHandler, hu, hp, hs] at ht
        · simp [proxyHandler, hu, hp, hh] at ht

/-- C10 witness: a parsed url with a foreign hostname is rejected with 403. -/
theorem proxyHandler_guards_witness :
    proxyHandler (fun _ => some ⟨"evil.com", "/nft/x"⟩) "GET"
      (some "https://evil.com/nft/x") = .respond 403 :=
  (proxyHandler_guards (fun _ => some ⟨"evil.com", "/nft/x"⟩) "https://evil.com/nft/x").2.2.1
    ⟨"evil.com", "/nft/x"⟩ rfl (by decide) (Or.inl (by decide))

/-- C4: on a cache miss with all three network attempts failing, safeFetch
    returns the caller-supplied fallback, leaves the cache unchanged (the
    fallback is not stored), issues exactly three attempts, and waits 800
    milliseconds times the attempt number between an attempt that is not
    the last and the next one, that is 800 and then 1600. -/
theorem safeFetch_all_attempts_fail {J : Type} (stringify : J → String) (parse : String → J)
    (net : Nat → Option J) (cache : String → Option String) (endpoint : String)
    (fallback : J) (hmiss : cache (cacheKey endpoint) = none)
    (hnet : ∀ i, net i = none) :
    safeFetch stringify parse net cache endpoint fallback =
      ⟨fallback, cache, [800, 1600], 3⟩ := by
  simp [safeFetch, safeFetchLoop, hmiss, hnet]

/-- C4 witness: a concrete instantiation with an always-failing network. -/
theorem safeFetch_all_attempts_fail_witness :
    safeFetch (fun _ => "") (fun _ => (0 : Nat)) (fun _ => none) (fun _ => none)
      "/gifts" 7 = ⟨7, (fun _ => none), [800, 1600], 3⟩ :=
  safeFetch_all_attempts_fail (fun _ => "") (fun _ => (0 : Nat)) (fun _ => none)
    (fun _ => none) "/gifts" 7 rfl (fun _ => rfl)

/-- C5 counterexample: the cache key is not computed by stripping
    non-alphanumeric characters; they are replaced by underscores, so the
    key of the gifts endpoint differs from its stripped form. -/
theorem cacheKey_not_stripped :
    cacheKey "/gifts" = "_gifts"
    ∧ cacheKeySpecStripped "/gifts" = "gifts"
    ∧ cacheKey "/gifts" ≠ cacheKeySpecStripped "/gifts" := by
  decide

/-- C5 amended: the cache key replaces every non-alphanumeric character of
    the endpoint with an underscore; a cache hit under that key returns the
    entry's parsed value immediately with zero network attempts; and after
    one successful call the entry is cached, so a second call for the same
    endpoint performs zero network attempts whatever the network then does. -/
theorem safeFetch_cache_memoization {J : Type} (stringify : J → String)
    (parse : String → J) (net net2 : Nat → Option J) (cache : String → Option String)
    (endpoint : String) (fallback fallback2 : J) :
    (∀ c, cache (cacheKey endpoint) = some c →
       safeFetch stringify parse net cache endpoint fallback = ⟨parse c, cache, [], 0⟩)
    ∧ (∀ d, net 1 = some d → cache (cacheKey endpoint) = none →
       safeFetch stringify parse net2
           (safeFetch stringify parse net cache endpoint fallback).cache
           endpoint fallback2 =
         ⟨parse (stringify d),
          (safeFetch stringify parse net cache endpoint fallback).cache, [], 0⟩) := by
  constructor
  · intro c hc
    simp [safeFetch, hc]
  · intro d hd hmiss
    have h1 : (safeFetch stringify parse net cache endpoint fallback).cache =
        setMap cache (cacheKey endpoint) (stringify d) := by
      simp [safeFetch, safeFetchLoop, hmiss, hd]
    rw [h1]
    have h2 : setMap cache (cacheKey endpoint) (stringify d) (cacheKey endpoint) =
        some (stringify d) := by
      simp [setMap]
    simp [safeFetch, h2]

/-- C5 witness: a concrete cache hit returns the parsed entry at once. -/
theorem safeFetch_cache_memoization_witness :
    safeFetch (fun _ => "s") (fun _ => (5 : Nat)) (fun _ => none)
      (fun k => if k = "_gifts" then some "x" else none) "/gifts" 0 =
      ⟨5, (fun k => if k = "_gifts" then some "x" else none), [], 0⟩ :=
  (safeFetch_cache_memoization (fun _ => "s") (fun _ => (5 : Nat)) (fun _ => none)
      (fun _ => none) (fun k => if k = "_gifts" then some "x" else none) "/gifts" 0 0).1
    "x" (by decide)

/-- A fold of single-key writes of one identifier: a key in the written
    list reads back that identifier, any other key is untouched. -/
theorem foldl_setMap_lookup (id : String) (l : List String)
    (m : String → Option String) (v : String) :
    (l.foldl (fun m2 u => setMap m2 u id) m) v = if v ∈ l then some id else m v := by
  induction l generalizing m with
  | nil => simp
  | cons u l ih =>
    rw [List.foldl_cons, ih]
    by_cases hv : v = u
    · subst hv
      by_cases hvl : v ∈ l <;> simp [hvl, setMap]
    · by_cases hvl : v ∈ l <;> simp [hvl, setMap, hv, List.mem_cons]

/-- Index lookup through the whole construction: if every source pair whose
    variants contain the key agrees on the identifier, and some pair
    contains it (or the accumulator already holds the identifier), the
    built index returns that identifier at the key. -/
theorem giftIds_foldl_lookup (v id : String) (pairs : List (String × String)) :
    ∀ m : String → Option String,
    (∀ p ∈ pairs, v ∈ variantsOf p.1 → p.2 = id) →
    ((∃ p ∈ pairs, v ∈ variantsOf p.1) ∨ m v = some id) →
    (pairs.foldl
      (fun m p => (variantsOf p.1).foldl (fun m2 u => setMap m2 u p.2) m) m) v = some id := by
  induction pairs with
  | nil =>
    intro m _ hsome
    rcases hsome with ⟨p, hp, _⟩ | hm
    · exact absurd hp (List.not_mem_nil p)
    · exact hm
  | cons p pairs ih =>
    intro m hall hsome
    rw [List.foldl_cons]
    apply ih
    · intro q hq hvq
      exact hall q (by simp [hq]) hvq
    · by_cases hvp : v ∈ variantsOf p.1
      · right
        rw [foldl_setMap_lookup]
        simp [hvp, hall p (by simp) hvp]
      · rcases hsome with ⟨q, hq, hvq⟩ | hm
        · rcases List.mem_cons.mp hq with rfl | hq2
          · exact absurd hvq hvp
          · exact Or.inl ⟨q, hq2, hvq⟩
        · right
          rw [foldl_setMap_lookup]
          simp [hvp, hm]

/-- C6 counterexample: when two source names collide on a variant, a
    variant of a name can resolve to a different identifier than the name
    itself maps to; here the lowercase variant of the first name resolves
    to the identifier last written by the second name. -/
theorem giftId_variant_collision :
    ("ab" ∈ variantsOf "AB")
    ∧ buildGiftIds [("AB", "1"), ("ab", "2")] "AB" = some "1"
    ∧ resolveGiftId (buildGiftIds [("AB", "1"), ("ab", "2")]) "ab" = some "2"
    ∧ (some "2" ≠ (some "1" : Option String)) := by
  decide

/-- C6 amended: for a source pair with a nonempty identifier, provided no
    other source pair shares any of the pair's name variants (the source
    does not defend against collisions, where the last write wins), every
    member of the variant family resolves through the built index to the
    identifier, which is also what the name itself maps to; resolution
    tries the query's own variant family in the fixed order and takes the
    first hit. -/
theorem giftId_variant_resolution (pairs : List (String × String)) (n id : String)
    (hmem : (n, id) ∈ pairs) (hid : id ≠ "")
    (hdisj : ∀ p ∈ pairs, ∀ v ∈ variantsOf n, v ∈ variantsOf p.1 → p = (n, id)) :
    (∀ v ∈ variantsOf n, resolveGiftId (buildGiftIds pairs) v = some id)
    ∧ buildGiftIds pairs n = some id := by
  have hlook : ∀ v ∈ variantsOf n, buildGiftIds pairs v = some id := by
    intro v hv
    apply giftIds_foldl_lookup
    · intro p hp hvp
      have := hdisj p hp v hv hvp
      rw [this]
    · exact Or.inl ⟨(n, id), hmem, hv⟩
  constructor
  · intro v hv
    have h1 : buildGiftIds pairs v = some id := hlook v hv
    have hd : variantsOf v =
        v :: [jsLower v, normalizeGiftName v, aggressiveNormalize v,
              String.mk (v.data.filter (fun c => c ≠ ' ')),
              String.mk ((jsLower v).data.map (fun c => if c = ' ' then '_' else c))] := rfl
    rw [resolveGiftId, hd, List.findSome?_cons]
    simp [h1, hid]
  · exact hlook n (by simp [variantsOf])

/-- C6 witness: a concrete instantiation of the amended statement on a
    one-entry source. -/
theorem giftId_variant_resolution_witness :
    resolveGiftId (buildGiftIds [("Santa Hat", "123")]) "santa-hat" = some "123" :=
  (giftId_variant_resolution [("Santa Hat", "123")] "Santa Hat" "123"
    (by decide) (by decide) (by decide)).1 "santa-hat" (by decide)

/-- One line-loop iteration changes the model field exactly as its model
    component does. -/
theorem stepLine_model (r : Extracted) (line : String) :
    (stepLine r line).model = stepModel r.model line := by
  by_cases h : line = "" <;>
    simp [stepLine, stepModel, h, branchQty, branchPattern, branchBackdrop, branchModel]

/-- One line-loop iteration changes totalIssued exactly as its totalIssued
    component does. -/
theorem stepLine_ti (r : Extracted) (line : String) :
    (stepLine r line).totalIssued = stepTI r.totalIssued line := by
  by_cases h : line = "" <;>
    simp [stepLine, stepTI, h, branchQty, branchPattern, branchBackdrop, branchModel]

/-- The model component of the whole line loop is the fold of the model
    component of one iteration. -/
theorem foldl_stepLine_model (ls : List String) (r : Extracted) :
    (ls.foldl stepLine r).model = ls.foldl stepModel r.model := by
  induction ls generalizing r with
  | nil => rfl
  | cons l ls ih => rw [List.foldl_cons, List.foldl_cons, ih, stepLine_model]

/-- The totalIssued component of the whole line loop is the fold of the
    totalIssued component of one iteration. -/
theorem foldl_stepLine_ti (ls : List String) (r : Extracted) :
    (ls.foldl stepLine r).totalIssued = ls.foldl stepTI r.totalIssued := by
  induction ls generalizing r with
  | nil => rfl
  | cons l ls ih => rw [List.foldl_cons, List.foldl_cons, ih, stepLine_ti]

/-- The extractor's model field is the line loop's model fold; the global
    quantity fallback never touches it. -/
theorem parse_model_eq (text : String) :
    (parseNftPageContent text).model = (linesOf text).foldl stepModel (some "") := by
  have hfold : (List.foldl stepLine initExtracted (linesOf text)).model =
      List.foldl stepModel (some "") (linesOf text) :=
    foldl_stepLine_model (linesOf text) initExtracted
  unfold parseNftPageContent
  by_cases hti : isFalsyN ((linesOf text).foldl stepLine initExtracted).totalIssued
  · cases hg : globalTI text <;> simp [hti, hg, hfold]
  · simp [hti, hfold]

/-- When no line yields a quantity, the extractor's totalIssued is the
    global fallback scan of the original text. -/
theorem parse_ti_global (text : String)
    (h : (linesOf text).foldl stepTI none = none) :
    (parseNftPageContent text).totalIssued = globalTI text := by
  have hfold : ((linesOf text).foldl stepLine initExtracted).totalIssued = none := by
    rw [foldl_stepLine_ti]
    exact h
  unfold parseNftPageContent
  cases hg : globalTI text <;> simp [hfold, hg, isFalsyN]

/-- A nonempty model value is frozen by every later line. -/
theorem foldl_stepModel_frozen (ls : List String) (v : String) (hv : v ≠ "") :
    ls.foldl stepModel (some v) = some v := by
  induction ls with
  | nil => rfl
  | cons l ls ih =>
    have hfal : isFalsyS (some v) = false := by simp [isFalsyS, hv]
    have h : stepModel (some v) l = some v := by
      by_cases h0 : l = ""
      · simp [stepModel, h0]
      · simp [stepModel, modelUpdate, h0, hfal]
    rw [List.foldl_cons, h, ih]

/-- A line yielding a model value through extractModel yields a nonempty
    one. -/
theorem extractModel_ne (l : String) (v : String) (h : extractModel l = some v) :
    v ≠ "" := by
  unfold extractModel at h
  by_cases h0 : l = ""
  · simp [h0] at h
  · by_cases hm : hasSub (jsLower l) "model" = true
    · simp [h0, hm] at h
      cases htm : tryModelVal l with
      | none => rw [htm] at h; simp at h
      | some w =>
        rw [htm] at h
        by_cases hw : w = ""
        · simp [hw] at h
        · simp [hw] at h
          rw [← h]
          exact hw
    · simp [h0, hm] at h

/-- On a still-falsy model field, one iteration behaves as the extraction
    of the line, an empty extraction leaving the field falsy. -/
theorem stepModel_empty_acc (l : String) :
    stepModel (some "") l =
      (match extractModel l with
       | some v => some v
       | none => some "") := by
  unfold stepModel extractModel modelUpdate
  by_cases h0 : l = ""
  · simp [h0]
  · by_cases hm : hasSub (jsLower l) "model" = true
    · have hf : isFalsyS (some "") = true := rfl
      simp [h0, hm, hf]
      cases htm : tryModelVal l with
      | none => rfl
      | some v =>
        by_cases hv : v = "" <;> simp [hv]
    · simp [h0, hm]

/-- The model fold from the initial empty string is the first nonempty
    per-line extraction, or the empty string when no line yields one. -/
theorem foldl_stepModel_char (ls : List String) :
    ls.foldl stepModel (some "") =
      (match ls.findSome? extractModel with
       | some v => some v
       | none => some "") := by
  induction ls with
  | nil => rfl
  | cons l ls ih =>
    rw [List.foldl_cons, stepModel_empty_acc, List.findSome?_cons]
    cases he : extractModel l with
    | none => simpa using ih
    | some v =>
      have hv := extractModel_ne l v he
      simp [foldl_stepModel_frozen ls v hv]

/-- The only quantity a line can contribute onto an unset totalIssued is a
    positive one. -/
theorem stepTI_pos (line : String) (n : Nat) (h : stepTI none line = some n) :
    0 < n := by
  unfold stepTI qtyUpdate at h
  by_cases h0 : line = ""
  · rw [if_pos h0] at h
    exact absurd h (by simp)
  · rw [if_neg h0] at h
    by_cases hc : ((hasSub (jsLower line) "quantity" || hasSub (jsLower line) "issued"
        || hasSub line "/") && isFalsyN none) = true
    · rw [if_pos hc] at h
      cases hg : group1 (reFind qtyRe line) with
      | none => simp [hg] at h
      | some g =>
        simp only [hg] at h
        cases hp : jsParseIntDigits (stripSep g) with
        | none => simp [hp] at h
        | some m =>
          simp only [hp] at h
          by_cases hm : 0 < m
          · rw [if_pos hm] at h
            simp at h
            omega
          · rw [if_neg hm] at h
            simp at h
    · rw [if_neg hc] at h
      exact absurd h (by simp)

/-- A line mentioning none of quantity, issued, slash leaves totalIssued
    unchanged. -/
theorem stepTI_skip (acc : Option Nat) (line : String)
    (h1 : hasSub (jsLower line) "quantity" = false)
    (h2 : hasSub (jsLower line) "issued" = false)
    (h3 : hasSub line "/" = false) :
    stepTI acc line = acc := by
  unfold stepTI qtyUpdate
  by_cases h0 : line = "" <;> simp [h0, h1, h2, h3]

/-- C7: totalIssued extraction. The concrete sample extracts 457382 from
    the right-hand operand with embedded spaces stripped; when no line
    yields a quantity the one global scan of the whole input decides the
    field; a line can only contribute a positive value; and lines without
    quantity, issued or a slash are skipped. -/
theorem totalIssued_extraction :
    (parseNftPageContent "367 993/457 382 issued").totalIssued = some 457382
    ∧ (∀ text, (linesOf text).foldl stepTI none = none →
        (parseNftPageContent text).totalIssued = globalTI text)
    ∧ (∀ line n, stepTI none line = some n → 0 < n)
    ∧ (∀ acc line, hasSub (jsLower line) "quantity" = false →
        hasSub (jsLower line) "issued" = false → hasSub line "/" = false →
        stepTI acc line = acc) := by
  refine ⟨by decide, ?_, ?_, ?_⟩
  · intro text h
    exact parse_ti_global text h
  · intro line n h
    exact stepTI_pos line n h
  · intro acc line h1 h2 h3
    exact stepTI_skip acc line h1 h2 h3

/-- C7 witness: a text whose only slash line parses to zero is rejected by
    the positivity check, so the global scan decides the field. -/
theorem totalIssued_extraction_witness :
    (parseNftPageContent "99/0").totalIssued = globalTI "99/0" :=
  totalIssued_extraction.2.1 "99/0" (by decide)

/-- One line-loop iteration changes the backdrop field exactly as its
    backdrop component does. -/
theorem stepLine_backdrop (r : Extracted) (line : String) :
    (stepLine r line).backdrop = stepBackdrop r.backdrop line := by
  by_cases h : line = "" <;>
    simp [stepLine, stepBackdrop, h, branchQty, branchPattern, branchBackdrop, branchModel]

/-- One line-loop iteration changes the pattern field exactly as its
    pattern component does. -/
theorem stepLine_pattern (r : Extracted) (line : String) :
    (stepLine r line).pattern = stepPattern r.pattern line := by
  by_cases h : line = "" <;>
    simp [stepLine, stepPattern, h, branchQty, branchPattern, branchBackdrop, branchModel]

/-- The backdrop component of the whole line loop is the fold of the
    backdrop component of one iteration. -/
theorem foldl_stepLine_backdrop (ls : List String) (r : Extracted) :
    (ls.foldl stepLine r).backdrop = ls.foldl stepBackdrop r.backdrop := by
  induction ls generalizing r with
  | nil => rfl
  | cons l ls ih => rw [List.foldl_cons, List.foldl_cons, ih, stepLine_backdrop]

/-- The pattern component of the whole line loop is the fold of the
    pattern component of one iteration. -/
theorem foldl_stepLine_pattern (ls : List String) (r : Extracted) :
    (ls.foldl stepLine r).pattern = ls.foldl stepPattern r.pattern := by
  induction ls generalizing r with
  | nil => rfl
  | cons l ls ih => rw [List.foldl_cons, List.foldl_cons, ih, stepLine_pattern]

/-- The extractor's backdrop field is the line loop's backdrop fold; the
    global quantity fallback never touches it. -/
theorem parse_backdrop_eq (text : String) :
    (parseNftPageContent text).backdrop = (linesOf text).foldl stepBackdrop (some "") := by
  have hfold : (List.foldl stepLine initExtracted (linesOf text)).backdrop =
      List.foldl stepBackdrop (some "") (linesOf text) :=
    foldl_stepLine_backdrop (linesOf text) initExtracted
  unfold parseNftPageContent
  by_cases hti : isFalsyN ((linesOf text).foldl stepLine initExtracted).totalIssued
  · cases hg : globalTI text <;> simp [hti, hg, hfold]
  · simp [hti, hfold]

/-- The extractor's pattern field is the line loop's pattern fold; the
    global quantity fallback never touches it. -/
theorem parse_pattern_eq (text : String) :
    (parseNftPageContent text).pattern = (linesOf text).foldl stepPattern (some "") := by
  have hfold : (List.foldl stepLine initExtracted (linesOf text)).pattern =
      List.foldl stepPattern (some "") (linesOf text) :=
    foldl_stepLine_pattern (linesOf text) initExtracted
  unfold parseNftPageContent
  by_cases hti : isFalsyN ((linesOf text).foldl stepLine initExtracted).totalIssued
  · cases hg : globalTI text <;> simp [hti, hg, hfold]
  · simp [hti, hfold]

/-- A nonempty backdrop value is frozen by every later line. -/
theorem foldl_stepBackdrop_frozen (ls : List String) (v : String) (hv : v ≠ "") :
    ls.foldl stepBackdrop (some v) = some v := by
  induction ls with
  | nil => rfl
  | cons l ls ih =>
    have hfal : isFalsyS (some v) = false := by simp [isFalsyS, hv]
    have h : stepBackdrop (some v) l = some v := by
      by_cases h0 : l = ""
      · simp [stepBackdrop, h0]
      · simp [stepBackdrop, backdropUpdate, h0, hfal]
    rw [List.foldl_cons, h, ih]

/-- A nonempty pattern value is frozen by every later line. -/
theorem foldl_stepPattern_frozen (ls : List String) (v : String) (hv : v ≠ "") :
    ls.foldl stepPattern (some v) = some v := by
  induction ls with
  | nil => rfl
  | cons l ls ih =>
    have hfal : isFalsyS (some v) = false := by simp [isFalsyS, hv]
    have h : stepPattern (some v) l = some v := by
      by_cases h0 : l = ""
      · simp [stepPattern, h0]
      · simp [stepPattern, patternUpdate, h0, hfal]
    rw [List.foldl_cons, h, ih]

/-- A line yielding a backdrop value through extractBackdrop yields a
    nonempty one. -/
theorem extractBackdrop_ne (l : String) (v : String) (h : extractBackdrop l = some v) :
    v ≠ "" := by
  unfold extractBackdrop at h
  by_cases h0 : l = ""
  · simp [h0] at h
  · by_cases hm : hasSub (jsLower l) "backdrop" = true
    · simp [h0, hm] at h
      cases htm : tryBackdropVal l with
      | none => rw [htm] at h; simp at h
      | some w =>
        rw [htm] at h
        by_cases hw : w = ""
        · simp [hw] at h
        · simp [hw] at h
          rw [← h]
          exact hw
    · simp [h0, hm] at h

/-- A line yielding a pattern value through extractPattern yields a
    nonempty one. -/
theorem extractPattern_ne (l : String) (v : String) (h : extractPattern l = some v) :
    v ≠ "" := by
  unfold extractPattern at h
  by_cases h0 : l = ""
  · simp [h0] at h
  · by_cases hm : (hasSub (jsLower l) "symbol" || hasSub (jsLower l) "pattern") = true
    · simp [h0, hm] at h
      cases htm : tryPatternVal l with
      | none => rw [htm] at h; simp at h
      | some w =>
        rw [htm] at h
        by_cases hw : w = ""
        · simp [hw] at h
        · simp [hw] at h
          rw [← h]
          exact hw
    · simp [h0, hm] at h

/-- On a still-falsy backdrop field, one iteration behaves as the
    extraction of the line, an empty extraction leaving the field falsy. -/
theorem stepBackdrop_empty_acc (l : String) :
    stepBackdrop (some "") l =
      (match extractBackdrop l with
       | some v => some v
       | none => some "") := by
  unfold stepBackdrop extractBackdrop backdropUpdate
  by_cases h0 : l = ""
  · simp [h0]
  · by_cases hm : hasSub (jsLower l) "backdrop" = true
    · have hf : isFalsyS (some "") = true := rfl
      simp [h0, hm, hf]
      cases htm : tryBackdropVal l with
      | none => rfl
      | some v =>
        by_cases hv : v = "" <;> simp [hv]
    · simp [h0, hm]

/-- On a still-falsy pattern field, one iteration behaves as the
    extraction of the line, an empty extraction leaving the field falsy. -/
theorem stepPattern_empty_acc (l : String) :
    stepPattern (some "") l =
      (match extractPattern l with
       | some v => some v
       | none => some "") := by
  unfold stepPattern extractPattern patternUpdate
  by_cases h0 : l = ""
  · simp [h0]
  · by_cases hm : (hasSub (jsLower l) "symbol" || hasSub (jsLower l) "pattern") = true
    · have hf : isFalsyS (some "") = true := rfl
      simp [h0, hm, hf]
      cases htm : tryPatternVal l with
      | none => rfl
      | some v =>
        by_cases hv : v = "" <;> simp [hv]
    · simp [h0, hm]

/-- The backdrop fold from the initial empty string is the first nonempty
    per-line extraction, or the empty string when no line yields one. -/
theorem foldl_stepBackdrop_char (ls : List String) :
    ls.foldl stepBackdrop (some "") =
      (match ls.findSome? extractBackdrop with
       | some v => some v
       | none => some "") := by
  induction ls with
  | nil => rfl
  | cons l ls ih =>
    rw [List.foldl_cons, stepBackdrop_empty_acc, List.findSome?_cons]
    cases he : extractBackdrop l with
    | none => simpa using ih
    | some v =>
      have hv := extractBackdrop_ne l v he
      simp [foldl_stepBackdrop_frozen ls v hv]

/-- The pattern fold from the initial empty string is the first nonempty
    per-line extraction, or the empty string when no line yields one. -/
theorem foldl_stepPattern_char (ls : List String) :
    ls.foldl stepPattern (some "") =
      (match ls.findSome? extractPattern with
       | some v => some v
       | none => some "") := by
  induction ls with
  | nil => rfl
  | cons l ls ih =>
    rw [List.foldl_cons, stepPattern_empty_acc, List.findSome?_cons]
    cases he : extractPattern l with
    | none => simpa using ih
    | some v =>
      have hv := extractPattern_ne l v he
      simp [foldl_stepPattern_frozen ls v hv]

/-- C8: labeled-field extraction for all three fields Model, Backdrop and
    Symbol/Pattern. The concrete table row extracts Diamonds for model,
    and analogous samples extract Nightfall for backdrop and Star for
    pattern, each with the trailing percentage stripped; in general each
    field is the first per-line extraction over the assembled lines, where
    a line contributes only when it mentions the field's label (symbol or
    pattern for the pattern field) and one of the three shapes, tried in
    order, matches with a nonempty post-processed value; and once a field
    holds a truthy value no later line overwrites it. -/
theorem labeled_field_extraction :
    (parseNftPageContent "| Model | Diamonds 0.5% |").model = some "Diamonds"
    ∧ (parseNftPageContent "Backdrop: Nightfall 12.3%").backdrop = some "Nightfall"
    ∧ (parseNftPageContent "| Symbol | Star 1.2% |").pattern = some "Star"
    ∧ (∀ text, (parseNftPageContent text).model =
        (match (linesOf text).findSome? extractModel with
         | some v => some v
         | none => some ""))
    ∧ (∀ text, (parseNftPageContent text).backdrop =
        (match (linesOf text).findSome? extractBackdrop with
         | some v => some v
         | none => some ""))
    ∧ (∀ text, (parseNftPageContent text).pattern =
        (match (linesOf text).findSome? extractPattern with
         | some v => some v
         | none => some ""))
    ∧ (∀ r line, isFalsyS r.model = false → (stepLine r line).model = r.model)
    ∧ (∀ r line, isFalsyS r.backdrop = false → (stepLine r line).backdrop = r.backdrop)
    ∧ (∀ r line, isFalsyS r.pattern = false → (stepLine r line).pattern = r.pattern) := by
  refine ⟨by decide, by decide, by decide, ?_, ?_, ?_, ?_, ?_, ?_⟩
  · intro text
    rw [parse_model_eq, foldl_stepModel_char]
  · intro text
    rw [parse_backdrop_eq, foldl_stepBackdrop_char]
  · intro text
    rw [parse_pattern_eq, foldl_stepPattern_char]
  · intro r line h
    rw [stepLine_model]
    by_cases h0 : line = ""
    · simp [stepModel, h0]
    · simp [stepModel, modelUpdate, h0, h]
  · intro r line h
    rw [stepLine_backdrop]
    by_cases h0 : line = ""
    · simp [stepBackdrop, h0]
    · simp [stepBackdrop, backdropUpdate, h0, h]
  · intro r line h
    rw [stepLine_pattern]
    by_cases h0 : line = ""
    · simp [stepPattern, h0]
    · simp [stepPattern, patternUpdate, h0, h]

/-- C8 witness: on a line mentioning all three labels, already-set model,
    backdrop and pattern fields all survive unchanged. -/
theorem labeled_field_extraction_witness :
    (stepLine ⟨some "X", some "Y", some "Z", none⟩
        "| model | A | backdrop | B | symbol | C |").model = some "X"
    ∧ (stepLine ⟨some "X", some "Y", some "Z", none⟩
        "| model | A | backdrop | B | symbol | C |").backdrop = some "Y"
    ∧ (stepLine ⟨some "X", some "Y", some "Z", none⟩
        "| model | A | backdrop | B | symbol | C |").pattern = some "Z" :=
  ⟨labeled_field_extraction.2.2.2.2.2.2.1 ⟨some "X", some "Y", some "Z", none⟩
      "| model | A | backdrop | B | symbol | C |" (by decide),
   labeled_field_extraction.2.2.2.2.2.2.2.1 ⟨some "X", some "Y", some "Z", none⟩
      "| model | A | backdrop | B | symbol | C |" (by decide),
   labeled_field_extraction.2.2.2.2.2.2.2.2 ⟨some "X", some "Y", some "Z", none⟩
      "| model | A | backdrop | B | symbol | C |" (by decide)⟩

end NftPlanner
